import Mathlib

/-!
Verification development for the circuit-builder wire-routing engine.

The TypeScript source is shallowly embedded: canvas coordinates are exact
rationals (`Rat`), grid cells are pairs of integers, JavaScript `Map`s are
functions into `Option`, the A* `while` loop is a fuel-indexed recursion
(the fuel is chosen large enough that the real loop, which always
terminates, never exhausts it on the runs examined), and mutation of a
wire's stored path is explicit state passing.
-/

namespace NetCircuit

/-- `Point` interface: `{x, y}` canvas coordinates. -/
structure Point where
  x : Rat
  y : Rat
deriving DecidableEq, Repr

/-- `Rectangle` interface: `{x, y, width, height}`, top-left anchored. -/
structure Rectangle where
  x : Rat
  y : Rat
  width : Rat
  height : Rat
deriving DecidableEq, Repr

/-- A grid cell index pair (the JS code uses `{x, y}` objects of integers
produced by `Math.floor`). -/
abbrev Cell := Int × Int

/-- The `boolean[][]` passability grid: `grid[y][x]` is embedded as
`passable (x, y)`; `gridWidth = grid[0].length`, `gridHeight = grid.length`. -/
structure Grid where
  gridWidth : Nat
  gridHeight : Nat
  passable : Cell → Bool

/-- `Wire.pointInRectangle`: inclusive containment test. -/
def pointInRectangle (point : Point) (rect : Rectangle) : Bool :=
  decide (rect.x ≤ point.x) && decide (point.x ≤ rect.x + rect.width) &&
  decide (rect.y ≤ point.y) && decide (point.y ≤ rect.y + rect.height)

/-- `Wire.arePointsCollinear`: `|cross| < 1e-5`. -/
def arePointsCollinear (p1 p2 p3 : Point) : Bool :=
  decide (|(p2.x - p1.x) * (p3.y - p1.y) - (p3.x - p1.x) * (p2.y - p1.y)| < 1 / 100000)

/-- The `steps` quantity `Math.max(Math.abs(dx), Math.abs(dy))` shared by the
two segment-interpolation loops (`markWirePathInGrid` and `isLineClear`). -/
def segSteps (p1 p2 : Point) : Rat :=
  max |p2.x - p1.x| |p2.y - p1.y|

/-- Sample points of the interpolation loop in `Wire.isLineClear`:
`for (i = 0; i <= steps; i++)` with `t = steps === 0 ? 0 : i / steps`. -/
def lineClearSamples (p1 p2 : Point) : List Point :=
  let steps := segSteps p1 p2
  (List.range (⌊steps⌋.toNat + 1)).map fun (i : Nat) =>
    let t : Rat := if steps = 0 then 0 else (i : Rat) / steps
    ⟨p1.x + (p2.x - p1.x) * t, p1.y + (p2.y - p1.y) * t⟩

/-- Sample points of the interpolation loop in `Wire.markWirePathInGrid`
(the source duplicates the same loop; it is embedded separately so both
routines are represented). -/
def wireSegSamples (p1 p2 : Point) : List Point :=
  let steps := segSteps p1 p2
  (List.range (⌊steps⌋.toNat + 1)).map fun (i : Nat) =>
    let t : Rat := if steps = 0 then 0 else (i : Rat) / steps
    ⟨p1.x + (p2.x - p1.x) * t, p1.y + (p2.y - p1.y) * t⟩

/-- `Wire.isLineClear`: false iff some sample of the segment lies in some
obstacle. -/
def isLineClear (pstart pEnd : Point) (obstacles : List Rectangle) : Bool :=
  (lineClearSamples pstart pEnd).all fun p =>
    !(obstacles.any fun o => pointInRectangle p o)

/-- `Wire.createLShapedPath`: horizontal-first L, then vertical-first L,
then the direct line. -/
def createLShapedPath (pstart pEnd : Point) (obstacles : List Rectangle) : List Point :=
  let midPoint1 : Point := ⟨pEnd.x, pstart.y⟩
  if isLineClear pstart midPoint1 obstacles && isLineClear midPoint1 pEnd obstacles then
    [pstart, midPoint1, pEnd]
  else
    let midPoint2 : Point := ⟨pstart.x, pEnd.y⟩
    if isLineClear pstart midPoint2 obstacles && isLineClear midPoint2 pEnd obstacles then
      [pstart, midPoint2, pEnd]
    else
      [pstart, pEnd]

/-- `Math.min(...xs)` over a nonempty spread (the head is the first list
element; the empty case never occurs in the source). -/
def listMin : List Rat → Rat
  | [] => 0
  | x :: xs => xs.foldl min x

/-- `Math.max(...xs)` over a nonempty spread. -/
def listMax : List Rat → Rat
  | [] => 0
  | x :: xs => xs.foldl max x

/-- Result record of `Wire.calculateGridBounds`. -/
structure GridBounds where
  minX : Rat
  minY : Rat
  width : Rat
  height : Rat
deriving DecidableEq, Repr

/-- `Wire.calculateGridBounds`: bounding window over start, end and all
obstacle corners, padded by 50 units on every side. -/
def calculateGridBounds (obstacles : List Rectangle) (pstart pEnd : Point) : GridBounds :=
  let allX := pstart.x :: pEnd.x :: (obstacles.map fun o => [o.x, o.x + o.width]).flatten
  let allY := pstart.y :: pEnd.y :: (obstacles.map fun o => [o.y, o.y + o.height]).flatten
  let minX := listMin allX - 50
  let minY := listMin allY - 50
  let maxX := listMax allX + 50
  let maxY := listMax allY + 50
  ⟨minX, minY, maxX - minX, maxY - minY⟩

/-- The integers `a, a+1, ..., b-1` (the index range of a JS
`for (i = a; i < b; i++)` loop). -/
def rangeInt (a b : Int) : List Int :=
  (List.range (b - a).toNat).map fun (i : Nat) => a + (i : Int)

/-- Set a single grid cell impassable (`grid[y][x] = false`). -/
def setBlocked (g : Grid) (c : Cell) : Grid :=
  ⟨g.gridWidth, g.gridHeight, fun c2 => if c2 = c then false else g.passable c2⟩

/-- `Wire.markRectangleInGrid`: the nested loops
`for (y = max(0,startY); y < min(H,endY); y++)`
`for (x = max(0,startX); x < min(W,endX); x++)` setting `grid[y][x] = false`. -/
def markRectangleInGrid (grid : Grid) (rect : Rectangle) (gridSize : Rat)
    (offsetX offsetY : Rat) : Grid :=
  let startX := ⌊(rect.x - offsetX) / gridSize⌋
  let startY := ⌊(rect.y - offsetY) / gridSize⌋
  let endX := ⌈(rect.x + rect.width - offsetX) / gridSize⌉
  let endY := ⌈(rect.y + rect.height - offsetY) / gridSize⌉
  (rangeInt (max 0 startY) (min (grid.gridHeight : Int) endY)).foldl (fun g y =>
    (rangeInt (max 0 startX) (min (grid.gridWidth : Int) endX)).foldl (fun g2 x =>
      setBlocked g2 (x, y)) g) grid

/-- `Wire.markWirePathInGrid`: walk every consecutive segment at
one-sample-per-unit granularity and block all cells within the fixed
tolerance radius 2 of each sample (with the source's bounds check). -/
def markWirePathInGrid (grid : Grid) (path : List Point) (gridSize : Rat)
    (offsetX offsetY : Rat) : Grid :=
  let tolerance : Int := 2
  (List.range (path.length - 1)).foldl (fun g i =>
    let p1 := path.getD i ⟨0, 0⟩
    let p2 := path.getD (i + 1) ⟨0, 0⟩
    (wireSegSamples p1 p2).foldl (fun g2 p =>
      let gridX := ⌊(p.x - offsetX) / gridSize⌋
      let gridY := ⌊(p.y - offsetY) / gridSize⌋
      (rangeInt (-tolerance) (tolerance + 1)).foldl (fun g3 dy =>
        (rangeInt (-tolerance) (tolerance + 1)).foldl (fun g4 dx =>
          let gx := gridX + dx
          let gy := gridY + dy
          if 0 ≤ gx ∧ 0 ≤ gy ∧ gy < (grid.gridHeight : Int) ∧ gx < (grid.gridWidth : Int) then
            setBlocked g4 (gx, gy)
          else g4) g3) g2) g) grid

/-- `Wire.createObstacleGrid`.  `existingPaths` stands for the routed paths
of the wires in `existingWires` other than the wire being routed
(the source filters `wire !== this && wire.routedPath.length > 0`; the
caller of this embedding supplies the other wires' paths directly). -/
def createObstacleGrid (obstacles : List Rectangle) (existingPaths : List (List Point))
    (gridSize : Rat) (pstart pEnd : Point) : Grid :=
  let bounds := calculateGridBounds obstacles pstart pEnd
  let gridWidth := (⌈bounds.width / gridSize⌉).toNat
  let gridHeight := (⌈bounds.height / gridSize⌉).toNat
  let grid0 : Grid := ⟨gridWidth, gridHeight, fun _ => true⟩
  let grid1 := obstacles.foldl
    (fun g o => markRectangleInGrid g o gridSize bounds.minX bounds.minY) grid0
  (existingPaths.filter fun p => 0 < p.length).foldl
    (fun g p => markWirePathInGrid g p gridSize bounds.minX bounds.minY) grid1

/-- The `GridNode` interface of the A* search. -/
structure GridNode where
  point : Cell
  gScore : Nat
  fScore : Nat
  parent : Option Cell
deriving DecidableEq, Repr

/-- The Manhattan `heuristic` between grid cells. -/
def heuristic (a b : Cell) : Nat :=
  (a.1 - b.1).natAbs + (a.2 - b.2).natAbs

/-- Insert a node into a list sorted by `fScore`, after all nodes with a
strictly smaller score and before all nodes with an equal or larger one. -/
def insertByF (n : GridNode) : List GridNode → List GridNode
  | [] => [n]
  | m :: ms => if m.fScore < n.fScore then m :: insertByF n ms else n :: m :: ms

/-- The stable ascending sort `openSet.sort((a, b) => a.fScore - b.fScore)`
(a stable sort by key is unique, so insertion sort reproduces the JS
runtime's stable sort exactly). -/
def sortByF : List GridNode → List GridNode
  | [] => []
  | n :: ns => insertByF n (sortByF ns)

/-- Functional update, embedding `Map.set`. -/
def setMap {α : Type} (f : Cell → Option α) (k : Cell) (v : α) : Cell → Option α :=
  fun c => if c = k then some v else f c

/-- Working state of the A* loop: `openSet`, `closedSet`, `gScores`,
`parents` (string keys `x,y` are injective on integer pairs, so the maps
are keyed by the cell itself). -/
structure AStarState where
  openSet : List GridNode
  closedSet : List Cell
  gScores : Cell → Option Nat
  parents : Cell → Option (Option Cell)

/-- Processing of one candidate neighbor inside the A* loop: skip if
closed, out of bounds or impassable; otherwise relax with unit edge cost
and push onto the open set if not already present. -/
def relaxNeighbor (grid : Grid) (gridEnd : Cell) (cur : GridNode)
    (st : AStarState) (nb : Cell) : AStarState :=
  if nb ∈ st.closedSet ∨ nb.1 < 0 ∨ nb.2 < 0 ∨
      (grid.gridHeight : Int) ≤ nb.2 ∨ (grid.gridWidth : Int) ≤ nb.1 ∨
      grid.passable nb = false then
    st
  else
    let tentativeGScore := cur.gScore + 1
    let better := match st.gScores nb with
      | none => true
      | some v => decide (tentativeGScore < v)
    if better then
      let parents2 := setMap st.parents nb (some cur.point)
      let gScores2 := setMap st.gScores nb tentativeGScore
      let fScore := tentativeGScore + heuristic nb gridEnd
      let openSet2 :=
        if st.openSet.any fun nd => nd.point = nb then st.openSet
        else st.openSet ++ [⟨nb, tentativeGScore, fScore, some cur.point⟩]
      ⟨openSet2, st.closedSet, gScores2, parents2⟩
    else st

/-- `Wire.reconstructPath`: follow parent links from the goal, prepending
the scaled cell each time (`undefined` and `null` parents both stop the
walk).  The fuel argument is an embedding device for the `while` loop; the
search always calls it with fuel exceeding the chain length. -/
def reconstructPath (fuel : Nat) (parents : Cell → Option (Option Cell))
    (p : Cell) (gridSize : Rat) : List Point :=
  match fuel with
  | 0 => []
  | f + 1 =>
    match parents p with
    | some (some q) => reconstructPath f parents q gridSize ++ [⟨p.1 * gridSize, p.2 * gridSize⟩]
    | _ => [⟨p.1 * gridSize, p.2 * gridSize⟩]

/-- One-per-iteration embedding of the A* `while (openSet.length > 0)`
loop: sort the open set, dequeue the lowest-f node, return the
reconstructed path on goal, otherwise close the node and relax its four
axis-aligned neighbors in source order. -/
def aStarLoop (grid : Grid) (gridEnd : Cell) (gridSize : Rat) (F : Nat) :
    Nat → AStarState → List Point
  | 0, _ => []
  | fuel + 1, st =>
    match sortByF st.openSet with
    | [] => []
    | cur :: rest =>
      if cur.point = gridEnd then
        reconstructPath F st.parents cur.point gridSize
      else
        let closed2 := cur.point :: st.closedSet
        let neighbors : List Cell :=
          [(cur.point.1 - 1, cur.point.2), (cur.point.1 + 1, cur.point.2),
           (cur.point.1, cur.point.2 - 1), (cur.point.1, cur.point.2 + 1)]
        let st2 := neighbors.foldl (relaxNeighbor grid gridEnd cur)
          ⟨rest, closed2, st.gScores, st.parents⟩
        aStarLoop grid gridEnd gridSize F fuel st2

/-- The grid cell of a canvas point: `Math.floor(p / gridSize)` per axis. -/
def cellOf (p : Point) (gridSize : Rat) : Cell :=
  (⌊p.x / gridSize⌋, ⌊p.y / gridSize⌋)

/-- A grid cell scaled back to canvas coordinates (`cell * gridSize`). -/
def scaleCell (c : Cell) (gridSize : Rat) : Point :=
  ⟨c.1 * gridSize, c.2 * gridSize⟩

/-- A canvas point snapped to its grid cell's scaled coordinates. -/
def snapPoint (p : Point) (gridSize : Rat) : Point :=
  scaleCell (cellOf p gridSize) gridSize

/-- `Wire.findPathAStar`.  The fuel `W*H + 2` strictly exceeds the number
of loop iterations the source can perform (every key enters the open set
at most once and only in-bounds cells are ever pushed), so the fueled
loop agrees with the unbounded one. -/
def findPathAStar (grid : Grid) (pstart pEnd : Point) (gridSize : Rat) : List Point :=
  let gridStart := cellOf pstart gridSize
  let gridEnd := cellOf pEnd gridSize
  let F := grid.gridWidth * grid.gridHeight + 2
  let startNode : GridNode := ⟨gridStart, 0, heuristic gridStart gridEnd, none⟩
  let st0 : AStarState :=
    ⟨[startNode], [], setMap (fun _ => none) gridStart 0, setMap (fun _ => none) gridStart none⟩
  aStarLoop grid gridEnd gridSize F F st0

/-- Fused embedding of the two nested loops of `Wire.optimizePath`:
`current` is the committed anchor, `farthest` the look-ahead index.  While
the triple `(path[current], path[farthest], path[farthest+1])` stays
collinear the look-ahead advances; on a direction change `path[farthest]`
is committed and becomes the anchor; when the look-ahead reaches the last
index that last point is committed and the outer loop ends. -/
def optimizeGo (path : List Point) : Nat → Nat → Nat → List Point
  | 0, _, farthest => [path.getD farthest ⟨0, 0⟩]
  | fuel + 1, current, farthest =>
    if farthest < path.length - 1 then
      if arePointsCollinear (path.getD current ⟨0, 0⟩) (path.getD farthest ⟨0, 0⟩)
          (path.getD (farthest + 1) ⟨0, 0⟩) then
        optimizeGo path fuel current (farthest + 1)
      else
        path.getD farthest ⟨0, 0⟩ :: optimizeGo path fuel farthest (farthest + 1)
    else
      [path.getD farthest ⟨0, 0⟩]

/-- `Wire.optimizePath`: paths of at most 2 points are copied unchanged;
otherwise the first point is committed and the greedy collinearity
collapse runs from anchor 0, look-ahead 1.  The fuel `path.length` is an
embedding device: the look-ahead advances by one per step and the guard
stops it at `path.length - 1`, so the fuel is never exhausted. -/
def optimizePath (path : List Point) : List Point :=
  if path.length ≤ 2 then path
  else path.getD 0 ⟨0, 0⟩ :: optimizeGo path path.length 0 1

/-- The routing-relevant state of a `Wire`: the enter/exit pin positions
read via `getPosition()` at the start of `calculatePath`, the manual bend
points, and the stored `_routedPath`. -/
structure Wire where
  enterPos : Point
  exitPos : Point
  bendPoints : List Point
  routedPath : List Point
deriving DecidableEq, Repr

/-- `Wire.calculatePath`: manual bend points short-circuit everything;
otherwise rasterize, search, and either simplify the found path or fall
back to the L-shaped path.  Returns the produced path together with the
wire state after the `this._routedPath = ...` assignment. -/
def calculatePath (w : Wire) (obstacles : List Rectangle)
    (existingPaths : List (List Point)) (gridSize : Rat) : List Point × Wire :=
  let pstart := w.enterPos
  let pEnd := w.exitPos
  let rp : List Point :=
    if 0 < w.bendPoints.length then
      pstart :: (w.bendPoints ++ [pEnd])
    else
      let grid := createObstacleGrid obstacles existingPaths gridSize pstart pEnd
      let path := findPathAStar grid pstart pEnd gridSize
      if 0 < path.length then optimizePath path
      else createLShapedPath pstart pEnd obstacles
  (rp, { w with routedPath := rp })

/-- The `PinType` enum (`null` written `nullType`). -/
inductive PinType where
  | input
  | output
  | power
  | ground
  | nullType
deriving DecidableEq, Repr

/-- The observable fields of a `Pin`: position, type, name, owning
component (by identifier, to break the reference cycle) and the two
public counters. -/
structure Pin where
  x : Rat
  y : Rat
  type : PinType
  name : String
  component : Option Nat
  convergenceCount : Nat
  divergenceCount : Nat
deriving DecidableEq, Repr

/-- A heap of pins addressed by identifier; `none` is a missing
(`null`/`undefined`) pin reference. -/
def PinStore := Nat → Option Pin

/-- The `Wire` constructor's effect on the pin heap: throw before any
mutation when either pin reference is missing, otherwise increment the
enter pin's `divergenceCount` and then the exit pin's `convergenceCount`
(sequentially, so an aliased pin would receive both increments). -/
def mkWire (pins : PinStore) (enterId exitId : Nat) : Except String PinStore :=
  match pins enterId, pins exitId with
  | some _, some _ =>
    let pins1 : PinStore := fun i =>
      if i = enterId then
        (pins i).map fun p => { p with divergenceCount := p.divergenceCount + 1 }
      else pins i
    Except.ok fun i =>
      if i = exitId then
        (pins1 i).map fun p => { p with convergenceCount := p.convergenceCount + 1 }
      else pins1 i
  | _, _ => Except.error "Both enter and exit pins must be provided"

/-- A concrete two-pin heap used to instantiate the `Wire`-constructor
theorem. -/
def samplePins : PinStore := fun i =>
  if i = 0 then some ⟨1, 2, PinType.input, "a", some 0, 0, 0⟩
  else if i = 1 then some ⟨3, 4, PinType.output, "b", some 0, 0, 0⟩
  else none

/-- Modelled from the spec: "mark all cells whose centers fall within
`[rect.x, rect.x+rect.width] × [rect.y, rect.y+rect.height]` (translated
into grid-local coordinates)".  The cell `(cx, cy)` covers the world
square with corner `(offsetX + cx*g, offsetY + cy*g)`, so its center is
offset by half a cell.  This is the specification-side characterization
that claim C6 asserts the rasterizer realizes. -/
def specCellCenterInRect (c : Cell) (gridSize : Rat) (offsetX offsetY : Rat)
    (rect : Rectangle) : Bool :=
  let cxCenter := offsetX + ((c.1 : Rat) + 1 / 2) * gridSize
  let cyCenter := offsetY + ((c.2 : Rat) + 1 / 2) * gridSize
  decide (rect.x ≤ cxCenter) && decide (cxCenter ≤ rect.x + rect.width) &&
  decide (rect.y ≤ cyCenter) && decide (cyCenter ≤ rect.y + rect.height)

/-! ### Helper lemmas -/

theorem insertByF_perm (n : GridNode) (l : List GridNode) :
    List.Perm (insertByF n l) (n :: l) := by
  induction l with
  | nil => simp [insertByF]
  | cons m ms ih =>
    simp only [insertByF]
    split
    · exact ((ih.cons m).trans (List.Perm.swap n m ms))
    · exact List.Perm.refl _

theorem sortByF_perm (l : List GridNode) : List.Perm (sortByF l) l := by
  induction l with
  | nil => simp [sortByF]
  | cons n ns ih =>
    simpa [sortByF] using (insertByF_perm n (sortByF ns)).trans (ih.cons n)

theorem mem_of_mem_sortByF {nd : GridNode} {l : List GridNode}
    (h : nd ∈ sortByF l) : nd ∈ l :=
  (sortByF_perm l).mem_iff.mp h

theorem optimizeGo_ne_nil (path : List Point) :
    ∀ fuel current farthest, optimizeGo path fuel current farthest ≠ [] := by
  intro fuel
  induction fuel with
  | zero => intro current farthest; simp [optimizeGo]
  | succ f ih =>
    intro current farthest
    simp only [optimizeGo]
    split
    · split
      · exact ih current (farthest + 1)
      · simp
    · simp

theorem optimizeGo_getLast? (path : List Point) :
    ∀ fuel current farthest, farthest ≤ path.length - 1 →
      path.length - 1 ≤ fuel + farthest →
      (optimizeGo path fuel current farthest).getLast? =
        some (path.getD (path.length - 1) ⟨0, 0⟩) := by
  intro fuel
  induction fuel with
  | zero =>
    intro current farthest h1 h2
    have : farthest = path.length - 1 := by omega
    simp [optimizeGo, this]
  | succ f ih =>
    intro current farthest h1 h2
    simp only [optimizeGo]
    split
    · rename_i hlt
      split
      · exact ih current (farthest + 1) (by omega) (by omega)
      · have hne := optimizeGo_ne_nil path f farthest (farthest + 1)
        rw [List.getLast?_cons, ih farthest (farthest + 1) (by omega) (by omega)]
        rfl
    · rename_i hge
      have : farthest = path.length - 1 := by omega
      simp [this]

theorem getLast?_eq_getD_length_sub_one {path : List Point} (h : path ≠ []) :
    path.getLast? = some (path.getD (path.length - 1) ⟨0, 0⟩) := by
  rw [List.getLast?_eq_getElem?, List.getD_eq_getElem?_getD]
  have hlt : path.length - 1 < path.length := by
    cases path with
    | nil => simp at h
    | cons a l => simp
  rw [List.getElem?_eq_getElem hlt]
  rfl

theorem optimizePath_ne_nil {path : List Point} (h : path ≠ []) :
    optimizePath path ≠ [] := by
  unfold optimizePath
  split
  · exact h
  · simp

theorem optimizePath_head? {path : List Point} (h : path ≠ []) :
    (optimizePath path).head? = path.head? := by
  unfold optimizePath
  split
  · rfl
  · cases path with
    | nil => simp at h
    | cons a l => simp

theorem optimizePath_getLast? {path : List Point} (h : path ≠ []) :
    (optimizePath path).getLast? = path.getLast? := by
  unfold optimizePath
  split
  · rfl
  · rename_i hlen
    have h3 : 3 ≤ path.length := by omega
    rw [List.getLast?_cons,
      optimizeGo_getLast? path path.length 0 1 (by omega) (by omega),
      getLast?_eq_getD_length_sub_one h]
    rfl

/-- Invariant of the A* working state after any number of iterations.
`n` bounds every recorded g-score: tentative scores grow by one per
dequeue, so the bound advances with the loop.  Parent links strictly
decrease the recorded g-score, which makes the parent chain acyclic and
forces it to end at the start cell, the unique key mapped to `none`. -/
structure GoodState (gridStart : Cell) (n : Nat) (st : AStarState) : Prop where
  gsStart : st.gScores gridStart = some 0
  parStart : st.parents gridStart = some none
  parity : ∀ k, (st.parents k).isSome ↔ (st.gScores k).isSome
  parNone : ∀ k, st.parents k = some none → k = gridStart
  parChain : ∀ k q, st.parents k = some (some q) →
    ∃ gk gq, st.gScores k = some gk ∧ st.gScores q = some gq ∧ gq < gk
  openG : ∀ nd ∈ st.openSet, ∃ gv, st.gScores nd.point = some gv ∧ gv ≤ nd.gScore
  openBound : ∀ nd ∈ st.openSet, nd.gScore ≤ n
  gsBound : ∀ k gv, st.gScores k = some gv → gv ≤ n

theorem GoodState.mono {gridStart : Cell} {n m : Nat} {st : AStarState}
    (h : GoodState gridStart n st) (hnm : n ≤ m) : GoodState gridStart m st where
  gsStart := h.gsStart
  parStart := h.parStart
  parity := h.parity
  parNone := h.parNone
  parChain := h.parChain
  openG := h.openG
  openBound := fun nd hnd => le_trans (h.openBound nd hnd) hnm
  gsBound := fun k gv hk => le_trans (h.gsBound k gv hk) hnm

theorem reconstructPath_spec {gridStart : Cell} {gs : Cell → Option Nat}
    {par : Cell → Option (Option Cell)} (g : Rat)
    (hparity : ∀ k, (par k).isSome ↔ (gs k).isSome)
    (hparNone : ∀ k, par k = some none → k = gridStart)
    (hparChain : ∀ k q, par k = some (some q) →
      ∃ gk gq, gs k = some gk ∧ gs q = some gq ∧ gq < gk) :
    ∀ fuel p gp, gs p = some gp → (par p).isSome → gp < fuel →
      reconstructPath fuel par p g ≠ [] ∧
      (reconstructPath fuel par p g).head? = some (scaleCell gridStart g) ∧
      (reconstructPath fuel par p g).getLast? = some (scaleCell p g) := by
  intro fuel
  induction fuel with
  | zero => intro p gp _ _ hlt; omega
  | succ f ih =>
    intro p gp hgs hpar hlt
    obtain ⟨v, hv⟩ := Option.isSome_iff_exists.mp hpar
    cases v with
    | none =>
      have hp := hparNone p hv
      subst hp
      simp [reconstructPath, hv, scaleCell]
    | some q =>
      obtain ⟨gk, gq, hgk, hgq, hlt2⟩ := hparChain p q hv
      have hgkgp : gk = gp := by rw [hgs] at hgk; exact (Option.some.inj hgk).symm
      have hq_par : (par q).isSome := (hparity q).mpr (by simp [hgq])
      obtain ⟨ihne, ihhead, _⟩ := ih q gq hgq hq_par (by omega)
      have heq : reconstructPath (f + 1) par p g =
          reconstructPath f par q g ++ [⟨p.1 * g, p.2 * g⟩] := by
        simp [reconstructPath, hv]
      refine ⟨by simp [heq], ?_, by simp [heq, scaleCell]⟩
      rw [heq]
      cases hrp : reconstructPath f par q g with
      | nil => exact absurd hrp ihne
      | cons a l => rw [hrp] at ihhead; simpa using ihhead

theorem update_state_good {gridStart : Cell} {n : Nat} {st : AStarState}
    (hst : GoodState gridStart n st) {cur : GridNode} {gc : Nat} {nb : Cell}
    (hcurgs : st.gScores cur.point = some gc) (hgc : gc ≤ cur.gScore)
    (hbound : cur.gScore + 1 ≤ n) (hne : nb ≠ cur.point)
    (hlt : ∀ v, st.gScores nb = some v → cur.gScore + 1 < v)
    {open2 : List GridNode} {fs : Nat}
    (hopen : ∀ nd ∈ open2, nd ∈ st.openSet ∨
      nd = ⟨nb, cur.gScore + 1, fs, some cur.point⟩)
    (closed2 : List Cell) :
    GoodState gridStart n
      ⟨open2, closed2, setMap st.gScores nb (cur.gScore + 1),
        setMap st.parents nb (some cur.point)⟩ := by
  have hnbStart : nb ≠ gridStart := by
    intro h
    subst h
    exact absurd (hlt 0 hst.gsStart) (by omega)
  have hgsnb : ¬gridStart = nb := fun h => hnbStart h.symm
  have hcpnb : ¬cur.point = nb := fun h => hne h.symm
  refine ⟨?_, ?_, ?_, ?_, ?_, ?_, ?_, ?_⟩
  · simp only [setMap, if_neg hgsnb]
    exact hst.gsStart
  · simp only [setMap, if_neg hgsnb]
    exact hst.parStart
  · intro k
    by_cases hk : k = nb
    · subst hk; simp [setMap]
    · simp only [setMap, if_neg hk]
      exact hst.parity k
  · intro k hk
    by_cases hkn : k = nb
    · subst hkn
      simp only [setMap, if_pos rfl] at hk
      exact absurd (Option.some.inj hk) (by simp)
    · simp only [setMap, if_neg hkn] at hk
      exact hst.parNone k hk
  · intro k q hk
    by_cases hkn : k = nb
    · rw [hkn] at hk ⊢
      simp only [setMap, if_pos rfl] at hk
      have hq : q = cur.point := (Option.some.inj (Option.some.inj hk)).symm
      rw [hq]
      refine ⟨cur.gScore + 1, gc, by simp [setMap], ?_, by omega⟩
      simp only [setMap, if_neg hcpnb]
      exact hcurgs
    · simp only [setMap, if_neg hkn] at hk
      obtain ⟨gk, gq, h1, h2, h3⟩ := hst.parChain k q hk
      refine ⟨gk, ?_⟩
      by_cases hqn : q = nb
      · rw [hqn]
        have h4 := hlt gq (hqn ▸ h2)
        exact ⟨cur.gScore + 1, by simp [setMap, if_neg hkn, h1], by simp [setMap], by omega⟩
      · exact ⟨gq, by simp [setMap, if_neg hkn, h1], by simp [setMap, if_neg hqn, h2], h3⟩
  · intro nd hnd
    rcases hopen nd hnd with hmem | hnew
    · obtain ⟨gv, h1, h2⟩ := hst.openG nd hmem
      by_cases hp : nd.point = nb
      · rw [hp] at h1
        have h3 := hlt gv h1
        refine ⟨cur.gScore + 1, by simp [setMap, hp], by omega⟩
      · exact ⟨gv, by simp [setMap, if_neg hp, h1], h2⟩
    · subst hnew
      exact ⟨cur.gScore + 1, by simp [setMap], le_refl _⟩
  · intro nd hnd
    rcases hopen nd hnd with hmem | hnew
    · exact hst.openBound nd hmem
    · subst hnew; exact hbound
  · intro k gv hk
    by_cases hkn : k = nb
    · subst hkn
      simp only [setMap, if_pos rfl] at hk
      have := Option.some.inj hk
      omega
    · simp only [setMap, if_neg hkn] at hk
      exact hst.gsBound k gv hk

theorem relaxNeighbor_good (grid : Grid) (gridEnd : Cell) {gridStart : Cell}
    {cur : GridNode} {st : AStarState} {nb : Cell} {n gc : Nat}
    (hst : GoodState gridStart n st)
    (hcurgs : st.gScores cur.point = some gc)
    (hgc : gc ≤ cur.gScore)
    (hbound : cur.gScore + 1 ≤ n)
    (hne : nb ≠ cur.point) :
    GoodState gridStart n (relaxNeighbor grid gridEnd cur st nb) ∧
    (relaxNeighbor grid gridEnd cur st nb).gScores cur.point = some gc := by
  have hcpnb : ¬cur.point = nb := fun h => hne h.symm
  unfold relaxNeighbor
  split
  · exact ⟨hst, hcurgs⟩
  · cases hnb : st.gScores nb with
    | none =>
      simp only [hnb]
      rw [if_pos trivial]
      constructor
      · apply update_state_good hst hcurgs hgc hbound hne
        · intro v hv
          rw [hnb] at hv
          cases hv
        · intro nd hnd
          by_cases hany : st.openSet.any fun nd2 => nd2.point = nb
          · rw [if_pos hany] at hnd
            exact Or.inl hnd
          · rw [if_neg hany] at hnd
            rcases List.mem_append.mp hnd with h | h
            · exact Or.inl h
            · exact Or.inr (by simpa using h)
      · simp only [setMap, if_neg hcpnb]
        exact hcurgs
    | some v =>
      simp only [hnb]
      by_cases hv : cur.gScore + 1 < v
      · rw [if_pos (decide_eq_true hv)]
        constructor
        · apply update_state_good hst hcurgs hgc hbound hne
          · intro v2 hv2
            rw [hnb] at hv2
            rwa [Option.some.inj hv2] at hv
          · intro nd hnd
            by_cases hany : st.openSet.any fun nd2 => nd2.point = nb
            · rw [if_pos hany] at hnd
              exact Or.inl hnd
            · rw [if_neg hany] at hnd
              rcases List.mem_append.mp hnd with h | h
              · exact Or.inl h
              · exact Or.inr (by simpa using h)
        · simp only [setMap, if_neg hcpnb]
          exact hcurgs
      · rw [if_neg (by simp [decide_eq_false hv])]
        exact ⟨hst, hcurgs⟩

theorem relaxList_good (grid : Grid) (gridEnd : Cell) {gridStart : Cell}
    {cur : GridNode} {n gc : Nat} :
    ∀ (nbs : List Cell) (st : AStarState),
      (∀ nb ∈ nbs, nb ≠ cur.point) →
      GoodState gridStart n st →
      st.gScores cur.point = some gc → gc ≤ cur.gScore → cur.gScore + 1 ≤ n →
      GoodState gridStart n (nbs.foldl (relaxNeighbor grid gridEnd cur) st) := by
  intro nbs
  induction nbs with
  | nil =>
    intro st _ hgood _ _ _
    exact hgood
  | cons nb rest ih =>
    intro st hall hgood hgs hgc hb
    simp only [List.foldl_cons]
    obtain ⟨h1, h2⟩ := relaxNeighbor_good grid gridEnd
      hgood hgs hgc hb (hall nb (List.mem_cons_self nb rest))
    exact ih _ (fun x hx => hall x (List.mem_cons_of_mem nb hx)) h1 h2 hgc hb

theorem aStarLoop_succ (grid : Grid) (gridEnd : Cell) (g : Rat) (F f : Nat)
    (st : AStarState) :
    aStarLoop grid gridEnd g F (f + 1) st =
      match sortByF st.openSet with
      | [] => []
      | cur :: rest =>
        if cur.point = gridEnd then reconstructPath F st.parents cur.point g
        else
          aStarLoop grid gridEnd g F f
            ([(cur.point.1 - 1, cur.point.2), (cur.point.1 + 1, cur.point.2),
              (cur.point.1, cur.point.2 - 1), (cur.point.1, cur.point.2 + 1)].foldl
              (relaxNeighbor grid gridEnd cur)
              ⟨rest, cur.point :: st.closedSet, st.gScores, st.parents⟩) := rfl

theorem aStarLoop_spec (grid : Grid) (gridStart gridEnd : Cell) (g : Rat) (F : Nat) :
    ∀ fuel st n, GoodState gridStart n st → n + fuel ≤ F →
      aStarLoop grid gridEnd g F fuel st = [] ∨
      ((aStarLoop grid gridEnd g F fuel st).head? = some (scaleCell gridStart g) ∧
       (aStarLoop grid gridEnd g F fuel st).getLast? = some (scaleCell gridEnd g)) := by
  intro fuel
  induction fuel with
  | zero =>
    intro st n _ _
    exact Or.inl rfl
  | succ f ih =>
    intro st n hgood hF
    rw [aStarLoop_succ]
    split
    · exact Or.inl rfl
    · rename_i cur rest hsort
      have hcurmem : cur ∈ st.openSet :=
        mem_of_mem_sortByF (by rw [hsort]; exact List.mem_cons_self _ _)
      obtain ⟨gv, hgv, hgvle⟩ := hgood.openG cur hcurmem
      have hcb := hgood.openBound cur hcurmem
      by_cases hgoal : cur.point = gridEnd
      · rw [if_pos hgoal]
        have hpar : (st.parents cur.point).isSome :=
          (hgood.parity cur.point).mpr (by simp [hgv])
        have hgvn : gv ≤ n := hgood.gsBound _ _ hgv
        obtain ⟨hne0, hhead, hlast⟩ :=
          reconstructPath_spec g hgood.parity hgood.parNone hgood.parChain
            F cur.point gv hgv hpar (by omega)
        right
        rw [hgoal] at hlast ⊢
        exact ⟨hgoal ▸ hhead, hlast⟩
      · rw [if_neg hgoal]
        have hrest : GoodState gridStart n
            ⟨rest, cur.point :: st.closedSet, st.gScores, st.parents⟩ := by
          refine ⟨hgood.gsStart, hgood.parStart, hgood.parity, hgood.parNone,
            hgood.parChain, ?_, ?_, hgood.gsBound⟩
          · intro nd hnd
            exact hgood.openG nd
              (mem_of_mem_sortByF (by rw [hsort]; exact List.mem_cons_of_mem _ hnd))
          · intro nd hnd
            exact hgood.openBound nd
              (mem_of_mem_sortByF (by rw [hsort]; exact List.mem_cons_of_mem _ hnd))
        have hall : ∀ nb ∈ [(cur.point.1 - 1, cur.point.2), (cur.point.1 + 1, cur.point.2),
            (cur.point.1, cur.point.2 - 1), (cur.point.1, cur.point.2 + 1)],
            nb ≠ cur.point := by
          intro nb hnb
          simp only [List.mem_cons, List.not_mem_nil, or_false] at hnb
          rcases hnb with rfl | rfl | rfl | rfl <;>
            · intro h
              rw [Prod.ext_iff] at h
              omega
        have hst2 := relaxList_good grid gridEnd _ _ hall
          (hrest.mono (Nat.le_succ n)) hgv hgvle (by omega)
        exact ih _ (n + 1) hst2 (by omega)

theorem findPathAStar_spec (grid : Grid) (pstart pEnd : Point) (g : Rat) :
    findPathAStar grid pstart pEnd g = [] ∨
    ((findPathAStar grid pstart pEnd g).head? = some (snapPoint pstart g) ∧
     (findPathAStar grid pstart pEnd g).getLast? = some (snapPoint pEnd g)) := by
  have hinit : GoodState (cellOf pstart g) 0
      ⟨[⟨cellOf pstart g, 0, heuristic (cellOf pstart g) (cellOf pEnd g), none⟩], [],
        setMap (fun _ => none) (cellOf pstart g) 0,
        setMap (fun _ => none) (cellOf pstart g) none⟩ := by
    refine ⟨by simp [setMap], by simp [setMap], ?_, ?_, ?_, ?_, ?_, ?_⟩
    · intro k
      by_cases hk : k = cellOf pstart g <;> simp [setMap, hk]
    · intro k hk
      by_cases h : k = cellOf pstart g
      · exact h
      · simp [setMap, h] at hk
    · intro k q hk
      by_cases h : k = cellOf pstart g <;> simp [setMap, h] at hk
    · intro nd hnd
      simp only [List.mem_singleton] at hnd
      subst hnd
      exact ⟨0, by simp [setMap], le_refl _⟩
    · intro nd hnd
      simp only [List.mem_singleton] at hnd
      subst hnd
      exact le_refl _
    · intro k gval hk
      by_cases h : k = cellOf pstart g
      · simp [setMap, h] at hk
        omega
      · simp [setMap, h] at hk
  exact aStarLoop_spec grid (cellOf pstart g) (cellOf pEnd g) g
    (grid.gridWidth * grid.gridHeight + 2) (grid.gridWidth * grid.gridHeight + 2)
    _ 0 hinit (by omega)

theorem findPathAStar_start_eq_goal (grid : Grid) (pstart pEnd : Point) (g : Rat)
    (h : cellOf pstart g = cellOf pEnd g) :
    findPathAStar grid pstart pEnd g = [scaleCell (cellOf pstart g) g] := by
  simp only [findPathAStar]
  rw [show grid.gridWidth * grid.gridHeight + 2
      = (grid.gridWidth * grid.gridHeight + 1) + 1 from rfl, aStarLoop_succ]
  simp only [sortByF, insertByF]
  rw [if_pos h]
  rw [show (grid.gridWidth * grid.gridHeight + 1) + 1
      = (grid.gridWidth * grid.gridHeight) + 2 from rfl]
  rw [show grid.gridWidth * grid.gridHeight + 2
      = (grid.gridWidth * grid.gridHeight + 1) + 1 from rfl]
  simp [reconstructPath, setMap, scaleCell]

theorem createLShapedPath_head? (s e : Point) (obstacles : List Rectangle) :
    (createLShapedPath s e obstacles).head? = some s := by
  simp only [createLShapedPath]
  split
  · rfl
  · split <;> rfl

theorem createLShapedPath_getLast? (s e : Point) (obstacles : List Rectangle) :
    (createLShapedPath s e obstacles).getLast? = some e := by
  simp only [createLShapedPath]
  split
  · rfl
  · split <;> rfl

theorem createLShapedPath_ne_nil (s e : Point) (obstacles : List Rectangle) :
    createLShapedPath s e obstacles ≠ [] := by
  simp only [createLShapedPath]
  split
  · simp
  · split <;> simp

theorem calculatePath_fst (w : Wire) (obstacles : List Rectangle)
    (paths : List (List Point)) (g : Rat) :
    (calculatePath w obstacles paths g).1 =
      if 0 < w.bendPoints.length then w.enterPos :: (w.bendPoints ++ [w.exitPos])
      else if 0 < (findPathAStar (createObstacleGrid obstacles paths g w.enterPos w.exitPos)
          w.enterPos w.exitPos g).length then
        optimizePath (findPathAStar (createObstacleGrid obstacles paths g w.enterPos w.exitPos)
          w.enterPos w.exitPos g)
      else createLShapedPath w.enterPos w.exitPos obstacles := rfl

theorem calculatePath_snd (w : Wire) (obstacles : List Rectangle)
    (paths : List (List Point)) (g : Rat) :
    (calculatePath w obstacles paths g).2 =
      { w with routedPath := (calculatePath w obstacles paths g).1 } := rfl

theorem mem_rangeInt {a b x : Int} : x ∈ rangeInt a b ↔ a ≤ x ∧ x < b := by
  unfold rangeInt
  constructor
  · intro hx
    obtain ⟨i, hi, h⟩ := List.mem_map.mp hx
    rw [List.mem_range] at hi
    omega
  · intro h
    refine List.mem_map.mpr ⟨(x - a).toNat, ?_, by omega⟩
    rw [List.mem_range]
    omega

theorem foldl_blockRow_passable (xs : List Int) (y : Int) :
    ∀ (g : Grid) (c : Cell),
      (xs.foldl (fun g2 x => setBlocked g2 (x, y)) g).passable c = false ↔
        ((c.1 ∈ xs ∧ c.2 = y) ∨ g.passable c = false) := by
  induction xs with
  | nil =>
    intro g c
    simp
  | cons x xs ih =>
    intro g c
    simp only [List.foldl_cons, ih]
    by_cases hc : c = (x, y)
    · subst hc
      simp [setBlocked]
    · simp only [setBlocked, if_neg hc, List.mem_cons]
      rw [Prod.ext_iff] at hc
      constructor
      · rintro (⟨h1, h2⟩ | h) <;> tauto
      · rintro (⟨h1 | h1, h2⟩ | h) <;> tauto

theorem foldl_blockRows_passable (xs ys : List Int) :
    ∀ (g : Grid) (c : Cell),
      (ys.foldl (fun g y => xs.foldl (fun g2 x => setBlocked g2 (x, y)) g) g).passable c
          = false ↔
        ((c.1 ∈ xs ∧ c.2 ∈ ys) ∨ g.passable c = false) := by
  induction ys with
  | nil =>
    intro g c
    simp
  | cons y ys ih =>
    intro g c
    simp only [List.foldl_cons, ih, foldl_blockRow_passable, List.mem_cons]
    tauto

/-! ### Claim theorems -/

/-- C4: for every wire whose manual bend point list is non-empty, the
router returns exactly `[source, ...bends, target]` and stores it as the
routed path, regardless of the obstacles, other routed paths and cell
size supplied.  The manual branch short-circuits the facade, so the
result does not depend on the grid rasterization, A* search,
simplification or fallback (none of them appears in the value). -/
theorem calculatePath_manual_bendPoints (w : Wire) (obstacles : List Rectangle)
    (paths : List (List Point)) (g : Rat) (h : w.bendPoints ≠ []) :
    (calculatePath w obstacles paths g).1 = w.enterPos :: (w.bendPoints ++ [w.exitPos]) ∧
    (calculatePath w obstacles paths g).2 =
      { w with routedPath := w.enterPos :: (w.bendPoints ++ [w.exitPos]) } := by
  have hlen : 0 < w.bendPoints.length := List.length_pos.mpr h
  constructor
  · rw [calculatePath_fst, if_pos hlen]
  · rw [calculatePath_snd, calculatePath_fst, if_pos hlen]

/-- Witness for C4 at a concrete wire with two bend points, a non-empty
obstacle list, a non-empty other-path list and a non-default cell size. -/
theorem calculatePath_manual_bendPoints_witness :
    (calculatePath ⟨⟨0, 0⟩, ⟨9, 9⟩, [⟨1, 1⟩, ⟨2, 2⟩], []⟩ [⟨0, 0, 5, 5⟩]
        [[⟨3, 3⟩]] 7).1 = [⟨0, 0⟩, ⟨1, 1⟩, ⟨2, 2⟩, ⟨9, 9⟩] := by
  have h := (calculatePath_manual_bendPoints ⟨⟨0, 0⟩, ⟨9, 9⟩, [⟨1, 1⟩, ⟨2, 2⟩], []⟩
    [⟨0, 0, 5, 5⟩] [[⟨3, 3⟩]] 7 (by simp)).1
  rw [h]
  rfl

/-- C8: the router facade is idempotent — rerouting the wire state
produced by a first call, with unchanged inputs, yields the same path and
the same wire state; the stored routed path equals the returned path; and
no field other than `routedPath` is touched. -/
theorem calculatePath_facade_idempotent (w : Wire) (obstacles : List Rectangle)
    (paths : List (List Point)) (g : Rat) :
    (calculatePath (calculatePath w obstacles paths g).2 obstacles paths g).1 =
      (calculatePath w obstacles paths g).1 ∧
    (calculatePath (calculatePath w obstacles paths g).2 obstacles paths g).2 =
      (calculatePath w obstacles paths g).2 ∧
    (calculatePath w obstacles paths g).2.routedPath = (calculatePath w obstacles paths g).1 ∧
    (calculatePath w obstacles paths g).2.enterPos = w.enterPos ∧
    (calculatePath w obstacles paths g).2.exitPos = w.exitPos ∧
    (calculatePath w obstacles paths g).2.bendPoints = w.bendPoints := by
  cases w
  exact ⟨rfl, rfl, rfl, rfl, rfl, rfl⟩

/-- C9: in both segment-interpolation routines (the wire-path marker's and
the fallback segment-clear test's), a zero step count never divides by
zero: the guard takes `t = 0` and exactly the single endpoint is
sampled. -/
theorem interpolation_zero_steps (p1 p2 : Point) (h : segSteps p1 p2 = 0) :
    wireSegSamples p1 p2 = [p1] ∧ lineClearSamples p1 p2 = [p1] := by
  constructor <;> simp [wireSegSamples, lineClearSamples, h]

/-- Witness for C9 at the degenerate segment from `(3, 4)` to itself. -/
theorem interpolation_zero_steps_witness :
    segSteps ⟨3, 4⟩ ⟨3, 4⟩ = 0 ∧ wireSegSamples ⟨3, 4⟩ ⟨3, 4⟩ = [⟨3, 4⟩] ∧
    lineClearSamples ⟨3, 4⟩ ⟨3, 4⟩ = [⟨3, 4⟩] := by
  have h0 : segSteps (⟨3, 4⟩ : Point) ⟨3, 4⟩ = 0 := by with_unfolding_all decide
  obtain ⟨h1, h2⟩ := interpolation_zero_steps ⟨3, 4⟩ ⟨3, 4⟩ h0
  exact ⟨h0, h1, h2⟩

/-- C10: constructing a wire between pins `enterId` and `exitId`
increments the enter pin's divergence count by one and the exit pin's
convergence count by one, leaves every other field of both pins and every
other pin unchanged, and throws (before any mutation) when either pin is
missing. -/
theorem mkWire_counters (pins : PinStore) (enterId exitId : Nat) :
    (∀ e x, pins enterId = some e → pins exitId = some x → enterId ≠ exitId →
      ∃ pins2, mkWire pins enterId exitId = Except.ok pins2 ∧
        pins2 enterId = some { e with divergenceCount := e.divergenceCount + 1 } ∧
        pins2 exitId = some { x with convergenceCount := x.convergenceCount + 1 } ∧
        ∀ i, i ≠ enterId → i ≠ exitId → pins2 i = pins i) ∧
    ((pins enterId = none ∨ pins exitId = none) →
      mkWire pins enterId exitId =
        Except.error "Both enter and exit pins must be provided") := by
  constructor
  · intro e x he hx hne
    unfold mkWire
    rw [he, hx]
    refine ⟨_, rfl, ?_, ?_, ?_⟩
    · simp [he, hne]
    · simp [hx, hne, Ne.symm hne]
    · intro i hie hix
      simp [hie, hix]
  · intro h
    unfold mkWire
    cases hpe : pins enterId with
    | none => cases hpx : pins exitId <;> rfl
    | some e =>
      cases hpx : pins exitId with
      | none => rfl
      | some x =>
        rcases h with he | hx
        · rw [hpe] at he
          cases he
        · rw [hpx] at hx
          cases hx

/-- Witness for C10 on a concrete two-pin heap. -/
theorem mkWire_counters_witness :
    ∃ pins2, mkWire samplePins 0 1 = Except.ok pins2 ∧
      pins2 0 = some ⟨1, 2, PinType.input, "a", some 0, 0, 1⟩ ∧
      pins2 1 = some ⟨3, 4, PinType.output, "b", some 0, 1, 0⟩ ∧
      pins2 5 = none := by
  obtain ⟨p2, h1, h2, h3, h4⟩ := (mkWire_counters samplePins 0 1).1
    ⟨1, 2, PinType.input, "a", some 0, 0, 0⟩ ⟨3, 4, PinType.output, "b", some 0, 0, 0⟩
    rfl rfl (by decide)
  exact ⟨p2, h1, by rw [h2], by rw [h3], by rw [h4 5 (by decide) (by decide)]; rfl⟩

/-- C6 counterexample: with cell size 10 and window origin `(0, 0)`, the
rectangle `{x: 6, y: 6, width: 2, height: 2}` gets cell `(0, 0)` marked
impassable even though that cell's center `(5, 5)` does not lie in the
rectangle — the rasterizer does not mark exactly the cells whose centers
fall within the rectangle. -/
theorem markRectangleInGrid_center_counterexample :
    (markRectangleInGrid ⟨2, 2, fun _ => true⟩ ⟨6, 6, 2, 2⟩ 10 0 0).passable (0, 0)
        = false ∧
      specCellCenterInRect (0, 0) 10 0 0 ⟨6, 6, 2, 2⟩ = false := by
  with_unfolding_all decide

/-- C6 (amended): for every obstacle rectangle the rasterizer marks as
impassable exactly the cells whose x index lies in
`[⌊(rect.x-ox)/g⌋, ⌈(rect.x+width-ox)/g⌉)` and whose y index lies in
`[⌊(rect.y-oy)/g⌋, ⌈(rect.y+height-oy)/g⌉)`, clipped to the grid bounds —
i.e. every cell whose g×g footprint overlaps the rectangle, not only the
cells whose centers fall within it; no other cell is newly marked. -/
theorem markRectangleInGrid_blocked_iff (grid : Grid) (rect : Rectangle)
    (gridSize : Rat) (offsetX offsetY : Rat) (c : Cell) :
    (markRectangleInGrid grid rect gridSize offsetX offsetY).passable c = false ↔
      ((max 0 ⌊(rect.x - offsetX) / gridSize⌋ ≤ c.1 ∧
        c.1 < min (grid.gridWidth : Int) ⌈(rect.x + rect.width - offsetX) / gridSize⌉ ∧
        max 0 ⌊(rect.y - offsetY) / gridSize⌋ ≤ c.2 ∧
        c.2 < min (grid.gridHeight : Int) ⌈(rect.y + rect.height - offsetY) / gridSize⌉) ∨
       grid.passable c = false) := by
  unfold markRectangleInGrid
  rw [foldl_blockRows_passable]
  simp only [mem_rangeInt]
  tauto

/-- C7 counterexample: the simplifier is not idempotent — on the 4-point
polyline `[(0,0), (1,0), (1,1), (1,0)]` one pass yields
`[(0,0), (1,0), (1,0)]` and a second pass collapses it further to
`[(0,0), (1,0)]`. -/
theorem optimizePath_not_idempotent :
    optimizePath (optimizePath [⟨0, 0⟩, ⟨1, 0⟩, ⟨1, 1⟩, ⟨1, 0⟩]) ≠
      optimizePath [⟨0, 0⟩, ⟨1, 0⟩, ⟨1, 1⟩, ⟨1, 0⟩] := by
  with_unfolding_all decide

/-- C7 (amended): inputs with at most 2 points are returned unchanged, and
`simplify (simplify p) = simplify p` holds for every input with at most 3
points; idempotence fails for longer inputs (see the counterexample). -/
theorem optimizePath_small (p : List Point) :
    (p.length ≤ 2 → optimizePath p = p) ∧
    (p.length ≤ 3 → optimizePath (optimizePath p) = optimizePath p) := by
  have hpass : ∀ q : List Point, q.length ≤ 2 → optimizePath q = q := by
    intro q hq
    unfold optimizePath
    rw [if_pos hq]
  refine ⟨hpass p, ?_⟩
  intro h
  match p with
  | [] => rw [hpass [] (by simp), hpass [] (by simp)]
  | [a] => rw [hpass [a] (by simp), hpass [a] (by simp)]
  | [a, b] => rw [hpass [a, b] (by simp), hpass [a, b] (by simp)]
  | [a, b, c] =>
    by_cases hcol : arePointsCollinear a b c = true
    · simp [optimizePath, optimizeGo, hcol]
    · simp only [Bool.not_eq_true] at hcol
      simp [optimizePath, optimizeGo, hcol]
  | a :: b :: c :: d :: rest => simp at h

/-- Witness for C7 at a 2-point and a 3-point polyline. -/
theorem optimizePath_small_witness :
    optimizePath [⟨0, 0⟩, ⟨1, 1⟩] = [⟨0, 0⟩, ⟨1, 1⟩] ∧
    optimizePath (optimizePath [⟨0, 0⟩, ⟨1, 1⟩, ⟨2, 0⟩]) =
      optimizePath [⟨0, 0⟩, ⟨1, 1⟩, ⟨2, 0⟩] :=
  ⟨(optimizePath_small _).1 (by decide), (optimizePath_small _).2 (by decide)⟩

/-- C1 counterexample: with source `(5, 0)` — not a multiple of the cell
size — target `(25, 0)`, no obstacles and no bends, the A* branch returns
the grid-snapped simplified path `[(0,0), (20,0)]`, whose first element is
not the source and whose last element is not the target. -/
theorem calculatePath_endpoints_counterexample :
    (calculatePath ⟨⟨5, 0⟩, ⟨25, 0⟩, [], []⟩ [] [] 10).1 = [⟨0, 0⟩, ⟨20, 0⟩] ∧
    (calculatePath ⟨⟨5, 0⟩, ⟨25, 0⟩, [], []⟩ [] [] 10).1.head? ≠ some ⟨5, 0⟩ ∧
    (calculatePath ⟨⟨5, 0⟩, ⟨25, 0⟩, [], []⟩ [] [] 10).1.getLast? ≠ some ⟨25, 0⟩ := by
  with_unfolding_all decide

/-- C1 (amended): the returned path's first and last elements equal the
source and target exactly when the wire has manual bend points or the
fallback produces the path; when the A* search succeeds, they are instead
the grid-snapped source and target `⌊p/cellSize⌋*cellSize` (equal to the
originals precisely when those coordinates are multiples of the cell
size). -/
theorem calculatePath_endpoints (w : Wire) (obstacles : List Rectangle)
    (paths : List (List Point)) (g : Rat) :
    (calculatePath w obstacles paths g).1.head? =
      some (if w.bendPoints = [] ∧
          findPathAStar (createObstacleGrid obstacles paths g w.enterPos w.exitPos)
            w.enterPos w.exitPos g ≠ [] then snapPoint w.enterPos g else w.enterPos) ∧
    (calculatePath w obstacles paths g).1.getLast? =
      some (if w.bendPoints = [] ∧
          findPathAStar (createObstacleGrid obstacles paths g w.enterPos w.exitPos)
            w.enterPos w.exitPos g ≠ [] then snapPoint w.exitPos g else w.exitPos) := by
  by_cases hb : w.bendPoints = []
  · by_cases hp : findPathAStar (createObstacleGrid obstacles paths g w.enterPos w.exitPos)
        w.enterPos w.exitPos g = []
    · rw [if_neg (by simp [hp]), if_neg (by simp [hp])]
      rw [calculatePath_fst, if_neg (by simp [hb]), if_neg (by simp [hp])]
      exact ⟨createLShapedPath_head? _ _ _, createLShapedPath_getLast? _ _ _⟩
    · rcases findPathAStar_spec (createObstacleGrid obstacles paths g w.enterPos w.exitPos)
        w.enterPos w.exitPos g with h | ⟨hh, hl⟩
      · exact absurd h hp
      · rw [if_pos ⟨hb, hp⟩, if_pos ⟨hb, hp⟩]
        rw [calculatePath_fst, if_neg (by simp [hb]), if_pos (List.length_pos.mpr hp)]
        exact ⟨by rw [optimizePath_head? hp, hh], by rw [optimizePath_getLast? hp, hl]⟩
  · rw [if_neg (by simp [hb]), if_neg (by simp [hb])]
    rw [calculatePath_fst, if_pos (List.length_pos.mpr hb)]
    constructor
    · rfl
    · rw [show w.enterPos :: (w.bendPoints ++ [w.exitPos]) =
          (w.enterPos :: w.bendPoints) ++ [w.exitPos] by simp,
        List.getLast?_concat]

/-- C3 counterexample: with source = target = `(0, 0)` and no obstacles,
the facade returns the 1-point path `[(0,0)]` — not the 2-point path
`[source, target]`, and of length < 2. -/
theorem calculatePath_degenerate_counterexample :
    (calculatePath ⟨⟨0, 0⟩, ⟨0, 0⟩, [], []⟩ [] [] 10).1 = [⟨0, 0⟩] ∧
    (calculatePath ⟨⟨0, 0⟩, ⟨0, 0⟩, [], []⟩ [] [] 10).1 ≠ [⟨0, 0⟩, ⟨0, 0⟩] ∧
    ¬2 ≤ (calculatePath ⟨⟨0, 0⟩, ⟨0, 0⟩, [], []⟩ [] [] 10).1.length := by
  with_unfolding_all decide

/-- C3 (amended): every routing call returns a non-empty path (length ≥ 1,
not ≥ 2), and in the degenerate case source = target (no bends) the call
does not throw and returns exactly the 1-point path containing the
grid-snapped source — the start cell equals the goal cell, so the A*
search succeeds immediately with a single-cell path that the simplifier
passes through unchanged. -/
theorem calculatePath_nonempty_and_degenerate (w : Wire) (obstacles : List Rectangle)
    (paths : List (List Point)) (g : Rat) :
    1 ≤ (calculatePath w obstacles paths g).1.length ∧
    (w.bendPoints = [] → w.enterPos = w.exitPos →
      (calculatePath w obstacles paths g).1 = [snapPoint w.enterPos g]) := by
  constructor
  · rw [calculatePath_fst]
    split
    · simp
    · split
      · rename_i hlen
        have hne : findPathAStar (createObstacleGrid obstacles paths g w.enterPos w.exitPos)
            w.enterPos w.exitPos g ≠ [] := by
          intro h
          rw [h] at hlen
          simp at hlen
        exact List.length_pos.mpr (optimizePath_ne_nil hne)
      · exact List.length_pos.mpr (createLShapedPath_ne_nil _ _ _)
  · intro hb he
    have hcell : cellOf w.enterPos g = cellOf w.exitPos g := by rw [he]
    have hpath := findPathAStar_start_eq_goal
      (createObstacleGrid obstacles paths g w.enterPos w.exitPos) w.enterPos w.exitPos g hcell
    rw [calculatePath_fst, if_neg (by simp [hb]), if_pos (by rw [hpath]; simp), hpath]
    unfold optimizePath
    rw [if_pos (by simp)]
    rfl

/-- Witness for C3 at source = target = `(5, 7)` with cell size 10 (the
snapped point is `(0, 0)`). -/
theorem calculatePath_nonempty_and_degenerate_witness :
    1 ≤ (calculatePath ⟨⟨5, 7⟩, ⟨5, 7⟩, [], []⟩ [] [] 10).1.length ∧
    (calculatePath ⟨⟨5, 7⟩, ⟨5, 7⟩, [], []⟩ [] [] 10).1 = [⟨0, 0⟩] := by
  have h := calculatePath_nonempty_and_degenerate ⟨⟨5, 7⟩, ⟨5, 7⟩, [], []⟩ [] [] 10
  refine ⟨h.1, ?_⟩
  rw [h.2 rfl rfl]
  with_unfolding_all decide

/-- C2: at the claim's concrete input — source `(0,0)`, target `(100,0)`,
one obstacle `{x:40, y:-20, width:20, height:40}`, cell size 10 — the
router returns exactly the direct 2-point line, which passes straight
through the obstacle (its midpoint `(50,0)` lies inside the rectangle):
`markRectangleInGrid` marks cells in window-offset coordinates while
`findPathAStar` searches in absolute `⌊p/cellSize⌋` coordinates, so the
obstacle blocks the wrong cells. -/
theorem calculatePath_direct_line_through_obstacle :
    (calculatePath ⟨⟨0, 0⟩, ⟨100, 0⟩, [], []⟩ [⟨40, -20, 20, 40⟩] [] 10).1 =
      [⟨0, 0⟩, ⟨100, 0⟩] ∧
    pointInRectangle ⟨50, 0⟩ ⟨40, -20, 20, 40⟩ = true := by
  with_unfolding_all decide

/-- C5: on a fully open grid (no obstacles, no other wires) with source
`(1000, 0)` and target `(1010, 0)`, the A* search returns the empty path —
step count 0 — although the Manhattan distance between the start and end
grid cells is 1: the cells `(100, 0)` and `(101, 0)` are computed without
subtracting the bounding-window origin and lie outside the 11×10 grid, so
every neighbor of the start node is rejected. -/
theorem findPathAStar_far_from_origin_empty :
    findPathAStar (createObstacleGrid [] [] 10 ⟨1000, 0⟩ ⟨1010, 0⟩)
        ⟨1000, 0⟩ ⟨1010, 0⟩ 10 = [] ∧
    heuristic (cellOf ⟨1000, 0⟩ 10) (cellOf ⟨1010, 0⟩ 10) = 1 := by
  with_unfolding_all decide

end NetCircuit
